import Mathlib

/-!
Shallow embedding of the `fast-api-notes` backend (files `app/notes/models.py`,
`app/notes/schemas.py`, `app/routers/notes.py`, `app/main.py`) together with
theorems settling the specification claims about it.

The persistent store is modelled as a list of rows plus the autoincrement
counter of the primary key; each request handler is a pure function from its
arguments and the store to a response and the successor store.  `db.commit()`
makes the handler's writes visible when they satisfy the table's column
constraints, and raises `IntegrityError` — an unhandled exception surfacing
as a generic 500 response, with nothing persisted — when a write violates
the `NOT NULL` constraints that `models.py` declares on `title`, `text`,
`owner` and `created_at`.
-/

/-- Calendar date as carried by Python `datetime.date` / the SQL `Date`
column: a year-month-day triple, compared lexicographically. -/
structure PDate where
  year : Nat
  month : Nat
  day : Nat
deriving DecidableEq, Repr

/-- Date comparison `a <= b`, the order SQL uses for `Date` columns. -/
def PDate.ble (a b : PDate) : Bool :=
  if a.year < b.year then true
  else if b.year < a.year then false
  else if a.month < b.month then true
  else if b.month < a.month then false
  else a.day ≤ b.day

/-- The characters of a string, lowercased (ASCII case folding, as SQL
`ILIKE` performs on the pattern and the column value). -/
def lowerChars (s : String) : List Char :=
  s.data.map Char.toLower

/-- SQL `LIKE` pattern matching over character lists: `%` matches any
(possibly empty) run of characters, `_` matches exactly one character, and
any other pattern character matches itself; the pattern must cover the
whole subject. -/
def likeMatch : List Char → List Char → Bool
  | [], t => t.isEmpty
  | p :: ps, t =>
    if p = '%' then
      t.tails.any (fun ts => likeMatch ps ts)
    else
      match t with
      | [] => false
      | tc :: ts => (if p = '_' then true else tc == p) && likeMatch ps ts

/-- SQL `ILIKE`: case-insensitive `LIKE`, i.e. `LIKE` after lowercasing
both the column value and the pattern (wildcards are unaffected by
lowercasing).  `get_all_notes` builds its patterns as `f"%{search}%"`
with the user-supplied search value interpolated unescaped, so `%` and
`_` inside the search value keep their wildcard meaning. -/
def ilike (hay pat : String) : Bool :=
  likeMatch (lowerChars pat) (lowerChars hay)

/-- Row of the `notes` table (`app/notes/models.py`, class `NoteDB`).
The SQL columns are declared non-nullable, but the Python-side mapped
attributes are plain dynamically-typed slots which the update handler can
set to `None`; the fields are therefore `Option`-typed, with `some` the
normal populated state. -/
structure NoteDB where
  id : Int
  title : Option String
  text : Option String
  owner : Option String
  created_at : Option PDate
deriving DecidableEq, Repr

/-- The database state: the rows of the `notes` table in storage order and
the next value of the autoincrement primary key. -/
structure Store where
  notes : List NoteDB
  nextId : Int
deriving DecidableEq, Repr

/-- An HTTP error response as raised by `HTTPException(status_code, detail)`
or produced by request-body validation. -/
structure HTTPError where
  status : Nat
  detail : String
deriving DecidableEq, Repr

/-- The fixed not-found message used by every handler. -/
def notFoundError : HTTPError :=
  ⟨404, "Заметка не найдена"⟩

/-- The generic response to an unhandled exception in a handler, such as
the `IntegrityError` that `db.commit()` raises on a constraint violation
(spec section 7(c): not specifically caught, propagates as a generic
server error). -/
def serverError : HTTPError :=
  ⟨500, "Internal Server Error"⟩

/-- The validation-failure response FastAPI produces when a request body
violates its pydantic schema (HTTP 422). -/
def validationError : HTTPError :=
  ⟨422, "Ошибка валидации данных"⟩

/-- Creation input shape (`app/notes/schemas.py`, class `NoteCreate`):
`title`, `text`, `owner` required strings, `created_at` optional. -/
structure NoteCreate where
  title : String
  text : String
  owner : String
  created_at : Option PDate
deriving DecidableEq, Repr

/-- Pydantic validation of `NoteCreate`: `title` has `min_length=1,
max_length=200`, `text` has `min_length=1`, `owner` has `min_length=1,
max_length=100`; `created_at` is unconstrained. -/
def NoteCreate.valid (d : NoteCreate) : Bool :=
  decide (1 ≤ d.title.length) && decide (d.title.length ≤ 200) &&
  decide (1 ≤ d.text.length) &&
  decide (1 ≤ d.owner.length) && decide (d.owner.length ≤ 100)

/-- Update input shape (`app/notes/schemas.py`, class `NoteUpdate`): every
field `Optional` with default `None`.  Pydantic distinguishes a field that
was never supplied from one explicitly supplied (possibly as `null`), which
`model_dump(exclude_unset=True)` relies on; a field is therefore
`Option (Option _)`: `none` = not supplied, `some none` = explicitly
`null`, `some (some v)` = explicitly `v`. -/
structure NoteUpdate where
  title : Option (Option String)
  text : Option (Option String)
  owner : Option (Option String)
  created_at : Option (Option PDate)
deriving DecidableEq, Repr

/-- Validation of one optional string field with `min_length=lo` and
`max_length=hi`: the bounds apply only when an actual string is supplied;
an absent field or an explicit `null` passes (the constraints live on the
`str` branch of `Optional[str]`). -/
def optStrOk (lo hi : Nat) : Option (Option String) → Bool
  | some (some s) => decide (lo ≤ s.length) && decide (s.length ≤ hi)
  | _ => true

/-- Validation of an optional string field with only `min_length=lo`. -/
def optStrOkMin (lo : Nat) : Option (Option String) → Bool
  | some (some s) => decide (lo ≤ s.length)
  | _ => true

/-- Pydantic validation of `NoteUpdate`: same bounds as `NoteCreate`, but
each only on the string branch of the `Optional` field. -/
def NoteUpdate.valid (d : NoteUpdate) : Bool :=
  optStrOk 1 200 d.title && optStrOkMin 1 d.text && optStrOk 1 100 d.owner

/-- Embedding of `db.query(NoteDB).where(NoteDB.id == id).first()`: the
first row of the table whose `id` matches, if any. -/
def firstNote (id : Int) (notes : List NoteDB) : Option NoteDB :=
  notes.find? (fun n => n.id == id)

/-- Handler `create_note` (`app/routers/notes.py`): builds a row from the
validated input, defaulting `created_at` to `date.today()` via Python
`or` when the optional input date is `None`; `db.add` appends the row and
the autoincrement assigns it the next primary key.  `today` is the ambient
current date, passed explicitly. -/
def create_note (d : NoteCreate) (today : PDate) (s : Store) : NoteDB × Store :=
  let note : NoteDB :=
    ⟨s.nextId, some d.title, some d.text, some d.owner, some (d.created_at.getD today)⟩
  (note, ⟨s.notes ++ [note], s.nextId + 1⟩)

/-- Route `POST /notes/new`: FastAPI validates the body against
`NoteCreate` before the handler runs; an invalid body is rejected with 422
and the store is untouched. -/
def createEndpoint (d : NoteCreate) (today : PDate) (s : Store) :
    Except HTTPError NoteDB × Store :=
  if d.valid then
    let r := create_note d today s
    (Except.ok r.1, r.2)
  else
    (Except.error validationError, s)

/-- Handler `get_note` (`app/routers/notes.py`): look the row up by id,
raise 404 with the fixed message when absent, return the row otherwise. -/
def get_note (id : Int) (s : Store) : Except HTTPError NoteDB :=
  match firstNote id s.notes with
  | none => Except.error notFoundError
  | some n => Except.ok n

/-- The owner filter expression `NoteDB.owner == owner`: SQL equality,
false on a `NULL` column. -/
def ownerFilter (o : String) (n : NoteDB) : Bool :=
  n.owner == some o

/-- The search filter expression
`NoteDB.title.ilike(f"%{search}%") | NoteDB.text.ilike(f"%{search}%")`:
SQL `ILIKE` is false on a `NULL` column. -/
def searchFilter (q : String) (n : NoteDB) : Bool :=
  (match n.title with | some t => ilike t ("%" ++ q ++ "%") | none => false) ||
  (match n.text with | some t => ilike t ("%" ++ q ++ "%") | none => false)

/-- The filter expression `NoteDB.created_at >= date_from`; false on a
`NULL` column. -/
def dateFromFilter (d : PDate) (n : NoteDB) : Bool :=
  match n.created_at with | some c => PDate.ble d c | none => false

/-- The filter expression `NoteDB.created_at <= date_to`; false on a
`NULL` column. -/
def dateToFilter (d : PDate) (n : NoteDB) : Bool :=
  match n.created_at with | some c => PDate.ble c d | none => false

/-- Query parameters of `GET /notes/`, all optional. -/
structure ListParams where
  owner : Option String
  search : Option String
  date_from : Option PDate
  date_to : Option PDate
deriving DecidableEq, Repr

/-- A conditional expression `expr if v else None` over an optional string
query value: Python truthiness makes both `None` and the empty string
falsy, so the filter is produced only for a supplied non-empty string. -/
def strFilterGuard (v : Option String) (g : String → NoteDB → Bool) :
    Option (NoteDB → Bool) :=
  match v with
  | some o => if o.isEmpty then none else some (g o)
  | none => none

/-- A conditional expression `expr if v else None` over an optional date
query value: a `date` object is always truthy, only `None` is falsy. -/
def dateFilterGuard (v : Option PDate) (g : PDate → NoteDB → Bool) :
    Option (NoteDB → Bool) :=
  match v with
  | some d => some (g d)
  | none => none

/-- The `filters` list built in `get_all_notes`, one guarded entry per
query parameter. -/
def appliedFilters (p : ListParams) : List (Option (NoteDB → Bool)) :=
  [ strFilterGuard p.owner ownerFilter,
    strFilterGuard p.search searchFilter,
    dateFilterGuard p.date_from dateFromFilter,
    dateFilterGuard p.date_to dateToFilter ]

/-- Handler `get_all_notes` (`app/routers/notes.py`): start from the whole
table and apply each non-`None` entry of `filters` in turn with
`query.filter`. -/
def get_all_notes (p : ListParams) (s : Store) : List NoteDB :=
  (appliedFilters p).foldl
    (fun acc f => match f with | some f => acc.filter f | none => acc)
    s.notes

/-- The field assignments of `update_note`: `model_dump(exclude_unset=True)`
yields exactly the explicitly supplied fields (value possibly `None`), and
`setattr` writes each onto the row; `id` is not a field of `NoteUpdate` and
is never touched. -/
def applyUpdate (d : NoteUpdate) (n : NoteDB) : NoteDB :=
  ⟨n.id, d.title.getD n.title, d.text.getD n.text, d.owner.getD n.owner,
    d.created_at.getD n.created_at⟩

/-- Replace the first row whose id matches with the updated row, leaving
every other row in place: the effect `db.commit()` makes durable after
`setattr` mutated the fetched row in place. -/
def replaceFirst (id : Int) (n2 : NoteDB) : List NoteDB → List NoteDB
  | [] => []
  | n :: ns => if n.id == id then n2 :: ns else n :: replaceFirst id n2 ns

/-- Whether a row satisfies the `NOT NULL` column constraints of the
`notes` table: `models.py` declares `title`, `text`, `owner` and
`created_at` with non-`Optional` `Mapped` types, so every column is
created `NOT NULL`. -/
def rowNotNullOk (n : NoteDB) : Bool :=
  n.title.isSome && n.text.isSome && n.owner.isSome && n.created_at.isSome

/-- Handler `update_note` (`app/routers/notes.py`): fetch the row by id,
404 when absent; otherwise write the explicitly supplied fields onto the
row and commit.  A commit whose written row satisfies the `NOT NULL`
constraints persists it and the handler returns the updated row; writing
an explicit `None` into a non-nullable column makes `db.commit()` raise
`IntegrityError`, which no handler catches — the transaction is not
committed, nothing is persisted, and the request surfaces as a generic
server error. -/
def update_note (id : Int) (d : NoteUpdate) (s : Store) :
    Except HTTPError NoteDB × Store :=
  match firstNote id s.notes with
  | none => (Except.error notFoundError, s)
  | some n =>
    let n2 := applyUpdate d n
    if rowNotNullOk n2 then
      (Except.ok n2, ⟨replaceFirst id n2 s.notes, s.nextId⟩)
    else
      (Except.error serverError, s)

/-- Route `POST /notes/update/{id}`: body validation against `NoteUpdate`
happens before the handler; an invalid body is rejected with 422 and the
store is untouched. -/
def updateEndpoint (id : Int) (d : NoteUpdate) (s : Store) :
    Except HTTPError NoteDB × Store :=
  if d.valid then update_note id d s
  else (Except.error validationError, s)

/-- Remove the first row whose id matches: the effect of `db.delete(note)`
on the row fetched by primary key. -/
def removeFirst (id : Int) : List NoteDB → List NoteDB
  | [] => []
  | n :: ns => if n.id == id then ns else n :: removeFirst id ns

/-- Handler `delete_note` (`app/routers/notes.py`): fetch the row by id,
404 when absent; otherwise delete the row and commit.  The route declares
`status_code=204` and returns no body on success. -/
def delete_note (id : Int) (s : Store) : Except HTTPError Unit × Store :=
  match firstNote id s.notes with
  | none => (Except.error notFoundError, s)
  | some _ => (Except.ok (), ⟨removeFirst id s.notes, s.nextId⟩)

/-- HTTP status of a delete response: 204 on success (route declaration),
the error status otherwise. -/
def deleteStatus (r : Except HTTPError Unit) : Nat :=
  match r with
  | Except.ok _ => 204
  | Except.error e => e.status

/-! ## Specification-side definitions -/

/-- Spec-side reading of the claims' search semantics: the search value
occurs as a case-insensitive substring of the given text (the lowercased
search value is a contiguous run inside the lowercased text). -/
def occursCI (q t : String) : Prop :=
  lowerChars q <:+: lowerChars t

/-- Whether a note passes one entry of the filter list: an absent entry
imposes no constraint. -/
def entryHolds (n : NoteDB) : Option (NoteDB → Bool) → Bool
  | some f => f n
  | none => true

/-- Spec-side reading of filter combination: a note satisfies every
applied filter (conjunction; an absent filter imposes no constraint). -/
def satisfiesAll (p : ListParams) (n : NoteDB) : Bool :=
  (appliedFilters p).all (entryHolds n)

/-- A populated, non-empty optional string field. -/
def nonEmptyOpt : Option String → Prop
  | some s => s ≠ ""
  | none => False

instance (o : Option String) : Decidable (nonEmptyOpt o) :=
  match o with
  | some s => inferInstanceAs (Decidable (s ≠ ""))
  | none => inferInstanceAs (Decidable False)

/-- Spec invariant on the store (section 3 of the spec): every persisted
note has a non-empty populated `title`, `text` and `owner`. -/
def notesInvariant (ns : List NoteDB) : Prop :=
  ∀ n ∈ ns, nonEmptyOpt n.title ∧ nonEmptyOpt n.text ∧ nonEmptyOpt n.owner

instance (ns : List NoteDB) : Decidable (notesInvariant ns) :=
  inferInstanceAs
    (Decidable (∀ n ∈ ns, nonEmptyOpt n.title ∧ nonEmptyOpt n.text ∧ nonEmptyOpt n.owner))

/-! ## Helper lemmas -/

theorem mem_foldl_optFilter (fs : List (Option (NoteDB → Bool)))
    (l : List NoteDB) (x : NoteDB) :
    x ∈ fs.foldl (fun acc f => match f with | some f => acc.filter f | none => acc) l ↔
      x ∈ l ∧ fs.all (entryHolds x) = true := by
  induction fs generalizing l with
  | nil => simp
  | cons f fs ih =>
    cases f with
    | none => simpa [entryHolds] using ih l
    | some f =>
      simp only [List.foldl_cons, List.all_cons, ih, List.mem_filter, entryHolds]
      constructor
      · rintro ⟨⟨hx, hf⟩, hall⟩
        exact ⟨hx, by simp [hf, hall]⟩
      · rintro ⟨hx, h⟩
        simp only [Bool.and_eq_true] at h
        exact ⟨⟨hx, h.1⟩, h.2⟩

theorem firstNote_eq_none_iff (id : Int) (ns : List NoteDB) :
    firstNote id ns = none ↔ ∀ n ∈ ns, n.id ≠ id := by
  simp [firstNote]

theorem firstNote_mem {id : Int} {ns : List NoteDB} {n : NoteDB}
    (h : firstNote id ns = some n) : n ∈ ns :=
  List.mem_of_find?_eq_some h

theorem firstNote_id {id : Int} {ns : List NoteDB} {n : NoteDB}
    (h : firstNote id ns = some n) : n.id = id := by
  have := List.find?_some h
  simpa using this

theorem replaceFirst_self {id : Int} {ns : List NoteDB} {n : NoteDB}
    (h : firstNote id ns = some n) : replaceFirst id n ns = ns := by
  induction ns with
  | nil => simp [firstNote] at h
  | cons m ms ih =>
    by_cases hm : m.id = id
    · have : firstNote id (m :: ms) = some m := by
        simp [firstNote, List.find?_cons_of_pos, hm]
      rw [this] at h
      cases h
      simp [replaceFirst, hm]
    · have hfind : firstNote id (m :: ms) = firstNote id ms := by
        simp [firstNote, List.find?_cons_of_neg, hm]
      rw [hfind] at h
      simp [replaceFirst, hm, ih h]

theorem mem_replaceFirst {id : Int} {ns : List NoteDB} {n : NoteDB}
    (n2 : NoteDB) (h : firstNote id ns = some n) :
    n2 ∈ replaceFirst id n2 ns := by
  induction ns with
  | nil => simp [firstNote] at h
  | cons m ms ih =>
    by_cases hm : m.id = id
    · simp [replaceFirst, hm]
    · have hfind : firstNote id (m :: ms) = firstNote id ms := by
        simp [firstNote, List.find?_cons_of_neg, hm]
      rw [hfind] at h
      simp [replaceFirst, hm]
      exact Or.inr (ih h)

theorem firstNote_removeFirst {id : Int} {ns : List NoteDB}
    (hnodup : (ns.map NoteDB.id).Nodup) :
    firstNote id (removeFirst id ns) = none := by
  induction ns with
  | nil => simp [removeFirst, firstNote]
  | cons m ms ih =>
    simp only [List.map_cons, List.nodup_cons] at hnodup
    by_cases hm : m.id = id
    · have hrw : removeFirst id (m :: ms) = ms := by
        simp [removeFirst, hm]
      rw [hrw, firstNote_eq_none_iff]
      intro n hn hnid
      have hmem : n.id ∈ ms.map NoteDB.id := List.mem_map_of_mem _ hn
      rw [hnid, ← hm] at hmem
      exact hnodup.1 hmem
    · have hrw : removeFirst id (m :: ms) = m :: removeFirst id ms := by
        simp [removeFirst, hm]
      rw [hrw, firstNote_eq_none_iff]
      intro n hn
      rcases List.mem_cons.mp hn with rfl | hn
      · exact hm
      · exact (firstNote_eq_none_iff id _).mp (ih hnodup.2) n hn

instance (q t : String) : Decidable (occursCI q t) :=
  inferInstanceAs (Decidable (lowerChars q <:+: lowerChars t))

theorem toNat_ofNat_lt {n : Nat} (h : n < 55296) : (Char.ofNat n).toNat = n := by
  have hv : n.isValidChar := Or.inl h
  unfold Char.ofNat
  rw [dif_pos hv]
  rfl

theorem toLower_eq_symbol {c w : Char} (hw1 : ¬ (65 ≤ w.toNat ∧ w.toNat ≤ 90))
    (hw2 : ¬ (97 ≤ w.toNat ∧ w.toNat ≤ 122)) : c.toLower = w ↔ c = w := by
  constructor
  · intro h
    simp only [Char.toLower] at h
    split at h
    · exfalso
      rename_i hc
      have h2 := congrArg Char.toNat h
      rw [toNat_ofNat_lt (by omega)] at h2
      omega
    · exact h
  · intro h
    subst h
    simp only [Char.toLower]
    rw [if_neg hw1]

theorem likeMatch_lit_pct (qs : List Char) (hq : ∀ c ∈ qs, c ≠ '%' ∧ c ≠ '_') :
    ∀ ts : List Char, likeMatch (qs ++ ['%']) ts = true ↔ qs <+: ts := by
  induction qs with
  | nil =>
    intro ts
    simp only [List.nil_append]
    constructor
    · intro h
      exact List.nil_prefix
    · intro h
      simp only [likeMatch, if_true, List.any_eq_true]
      exact ⟨[], (List.mem_tails [] ts).mpr List.nil_suffix, by decide⟩
  | cons c qs ih =>
    intro ts
    obtain ⟨hc1, hc2⟩ := hq c (List.mem_cons_self c qs)
    have ih2 := ih (fun x hx => hq x (List.mem_cons_of_mem c hx))
    cases ts with
    | nil => simp [likeMatch, hc1]
    | cons tc ts2 =>
      have heq : likeMatch ((c :: qs) ++ ['%']) (tc :: ts2) =
          ((tc == c) && likeMatch (qs ++ ['%']) ts2) := by
        simp [likeMatch, hc1, hc2]
      rw [heq, List.cons_prefix_cons, Bool.and_eq_true, beq_iff_eq, ih2 ts2]
      constructor
      · rintro ⟨h1, h2⟩
        exact ⟨h1.symm, h2⟩
      · rintro ⟨h1, h2⟩
        exact ⟨h1.symm, h2⟩

theorem likeMatch_pct_lit_pct (qs ts : List Char) (hq : ∀ c ∈ qs, c ≠ '%' ∧ c ≠ '_') :
    likeMatch ('%' :: (qs ++ ['%'])) ts = true ↔ qs <:+: ts := by
  have hrw : likeMatch ('%' :: (qs ++ ['%'])) ts =
      ts.tails.any (fun x => likeMatch (qs ++ ['%']) x) := by
    simp [likeMatch]
  rw [hrw, List.any_eq_true]
  constructor
  · rintro ⟨x, hx, hlm⟩
    exact List.infix_iff_prefix_suffix.mpr
      ⟨x, (likeMatch_lit_pct qs hq x).mp hlm, (List.mem_tails x ts).mp hx⟩
  · intro h
    obtain ⟨x, hpre, hsuf⟩ := List.infix_iff_prefix_suffix.mp h
    exact ⟨x, (List.mem_tails x ts).mpr hsuf, (likeMatch_lit_pct qs hq x).mpr hpre⟩

theorem ilike_pct_iff (t q : String) (hq : ∀ c ∈ q.data, c ≠ '%' ∧ c ≠ '_') :
    ilike t ("%" ++ q ++ "%") = true ↔ occursCI q t := by
  have hdata : lowerChars ("%" ++ q ++ "%") = '%' :: (lowerChars q ++ ['%']) := by
    simp [lowerChars, String.data_append, List.append_assoc]
  have hq2 : ∀ c ∈ lowerChars q, c ≠ '%' ∧ c ≠ '_' := by
    intro c hc
    obtain ⟨c0, hc0, rfl⟩ := List.mem_map.mp hc
    obtain ⟨h1, h2⟩ := hq c0 hc0
    exact ⟨fun h => h1 ((toLower_eq_symbol (by decide) (by decide)).mp h),
           fun h => h2 ((toLower_eq_symbol (by decide) (by decide)).mp h)⟩
  unfold ilike occursCI
  rw [hdata]
  exact likeMatch_pct_lit_pct (lowerChars q) (lowerChars t) hq2

/-! ## Concrete data used by scenario parts and witnesses -/

/-- First note of the spec's concrete scenario (assigned id 1). -/
def standupNote : NoteDB :=
  ⟨1, some "Standup", some "daily sync", some "Ann", some ⟨2025, 1, 10⟩⟩

/-- Second note of the spec's concrete scenario (assigned id 2). -/
def lunchNote : NoteDB :=
  ⟨2, some "Lunch", some "with Bob", some "Ann", some ⟨2025, 1, 12⟩⟩

/-- The store after the scenario's two creations. -/
def scenStore : Store :=
  ⟨[standupNote, lunchNote], 3⟩

/-- A one-note store used to instantiate theorems with hypotheses. -/
def wNote : NoteDB :=
  ⟨1, some "a", some "b", some "c", some ⟨2025, 1, 1⟩⟩

/-- The store holding just `wNote`. -/
def wStore : Store :=
  ⟨[wNote], 2⟩

/-- A note whose owner is the empty string (such a row can predate the
current validation rules or be produced by other write paths). -/
def emptyOwnerNote : NoteDB :=
  ⟨1, some "E", some "e", some "", some ⟨2025, 1, 1⟩⟩

/-- A note owned by `"A"`. -/
def namedOwnerNote : NoteDB :=
  ⟨2, some "N", some "n", some "A", some ⟨2025, 1, 1⟩⟩

/-- A store holding one empty-owner note and one normally owned note. -/
def mixedStore : Store :=
  ⟨[emptyOwnerNote, namedOwnerNote], 3⟩

/-- A note whose title `"aXb"` matches the LIKE pattern built from the
search value `"a%b"` without containing it as a substring. -/
def wildNote : NoteDB :=
  ⟨1, some "aXb", some "t", some "o", some ⟨2025, 1, 1⟩⟩

/-- The store holding just `wildNote`. -/
def wildStore : Store :=
  ⟨[wildNote], 2⟩

/-! ## Claim theorems -/

/-- C6: the create handler stores the supplied `created_at` exactly when
the input provides one, and stores the current date (the ambient `today`
of `date.today()`) when the input omits it; the built row is persisted. -/
theorem create_created_at_spec (d : NoteCreate) (today : PDate) (s : Store) :
    (create_note d today s).1 ∈ (create_note d today s).2.notes ∧
    (d.created_at = none → (create_note d today s).1.created_at = some today) ∧
    (∀ c, d.created_at = some c → (create_note d today s).1.created_at = some c) := by
  refine ⟨by simp [create_note], ?_, ?_⟩
  · intro h
    simp [create_note, h]
  · intro c h
    simp [create_note, h]

/-- Witness for C6: creating without a date on 2025-01-02 stores
2025-01-02; creating with 2024-05-06 stores exactly 2024-05-06. -/
theorem create_created_at_spec_witness :
    (create_note ⟨"T", "X", "O", none⟩ ⟨2025, 1, 2⟩ ⟨[], 1⟩).1.created_at =
      some ⟨2025, 1, 2⟩ ∧
    (create_note ⟨"T", "X", "O", some ⟨2024, 5, 6⟩⟩ ⟨2025, 1, 2⟩ ⟨[], 1⟩).1.created_at =
      some ⟨2024, 5, 6⟩ :=
  ⟨(create_created_at_spec ⟨"T", "X", "O", none⟩ ⟨2025, 1, 2⟩ ⟨[], 1⟩).2.1 rfl,
   (create_created_at_spec ⟨"T", "X", "O", some ⟨2024, 5, 6⟩⟩ ⟨2025, 1, 2⟩ ⟨[], 1⟩).2.2 _ rfl⟩

/-- C7: when no row matches the id, `get_note` fails with 404 and the
fixed message; every error it ever produces is that same 404 (in
particular never a 422 validation error); when a row matches, the handler
returns it. -/
theorem get_note_spec :
    (∀ id s, firstNote id s.notes = none → get_note id s = Except.error notFoundError) ∧
    (∀ id s e, get_note id s = Except.error e → e = notFoundError ∧ e.status = 404) ∧
    (∀ id s n, firstNote id s.notes = some n → get_note id s = Except.ok n) := by
  refine ⟨?_, ?_, ?_⟩
  · intro id s h
    simp [get_note, h]
  · intro id s e h
    unfold get_note at h
    cases hf : firstNote id s.notes with
    | none =>
      rw [hf] at h
      cases h
      exact ⟨rfl, rfl⟩
    | some n =>
      rw [hf] at h
      cases h
  · intro id s n h
    simp [get_note, h]

/-- Witness for C7: id 999999 on the empty store yields the fixed 404;
id 1 on a one-note store yields the note. -/
theorem get_note_spec_witness :
    get_note 999999 ⟨[], 1⟩ = Except.error notFoundError ∧
    get_note 1 wStore = Except.ok wNote :=
  ⟨get_note_spec.1 999999 ⟨[], 1⟩ (by decide),
   get_note_spec.2.2 1 wStore wNote (by decide)⟩

/-- C2: when no row matches the id, `delete_note` fails with 404 and
leaves the store unchanged (an error response, not a crash); when a row
matches, it succeeds — the route reports 204 with no body — and in the
resulting store the id no longer resolves, so a subsequent get of the
same id fails with 404.  Primary-key uniqueness of the stored ids is the
standing hypothesis. -/
theorem delete_note_spec (id : Int) (s : Store)
    (hnodup : (s.notes.map NoteDB.id).Nodup) :
    (firstNote id s.notes = none →
      delete_note id s = (Except.error notFoundError, s)) ∧
    (∀ n, firstNote id s.notes = some n →
      ∃ s2, delete_note id s = (Except.ok (), s2) ∧
        deleteStatus (delete_note id s).1 = 204 ∧
        get_note id s2 = Except.error notFoundError ∧
        firstNote id s2.notes = none) := by
  constructor
  · intro h
    simp [delete_note, h]
  · intro n h
    have hdel : delete_note id s = (Except.ok (), ⟨removeFirst id s.notes, s.nextId⟩) := by
      simp [delete_note, h]
    have hgone : firstNote id (removeFirst id s.notes) = none :=
      firstNote_removeFirst hnodup
    refine ⟨⟨removeFirst id s.notes, s.nextId⟩, hdel, ?_, ?_, hgone⟩
    · rw [hdel]
      rfl
    · simp [get_note, hgone]

/-- Witness for C2: deleting id 5 from the one-note store 404s and leaves
it unchanged; deleting id 1 succeeds and the subsequent get of id 1
404s. -/
theorem delete_note_spec_witness :
    delete_note 5 wStore = (Except.error notFoundError, wStore) ∧
    ∃ s2, delete_note 1 wStore = (Except.ok (), s2) ∧
      get_note 1 s2 = Except.error notFoundError := by
  constructor
  · exact (delete_note_spec 5 wStore (by decide)).1 (by decide)
  · obtain ⟨s2, h1, _, h3, _⟩ := (delete_note_spec 1 wStore (by decide)).2 wNote (by decide)
    exact ⟨s2, h1, h3⟩

/-- Counterexample to C1 as stated: an update body supplying an explicit
null title is valid and explicitly supplies the `title` field, yet the
update operation does not set that field — `db.commit()` violates the
`NOT NULL` column constraint, the request fails with the generic 500
error, and the stored note still carries its prior title. -/
theorem update_frame_cex :
    (⟨some none, none, none, none⟩ : NoteUpdate).valid = true ∧
    (⟨some none, none, none, none⟩ : NoteUpdate).title = some none ∧
    updateEndpoint 1 ⟨some none, none, none, none⟩ wStore =
      (Except.error serverError, wStore) ∧
    firstNote 1 (updateEndpoint 1 ⟨some none, none, none, none⟩ wStore).2.notes =
      some wNote ∧
    wNote.title = some "a" := by
  exact ⟨by decide, rfl, rfl, rfl, rfl⟩

theorem getD_isSome_of_ne_null {α : Type} (o : Option (Option α)) (base : Option α)
    (hb : base.isSome = true) (ho : o ≠ some none) : (o.getD base).isSome = true := by
  cases o with
  | none => simpa using hb
  | some v =>
    cases v with
    | none => exact absurd rfl ho
    | some s => rfl

/-- C1 (amended): for a found, fully populated note and a valid update
body none of whose supplied fields is an explicit null, the update
endpoint returns the note with every explicitly supplied field set to
its supplied value and every omitted field (and the id) kept at its
prior value; a body supplying no fields returns the note unchanged and
leaves the whole store unchanged.  (A body supplying an explicit null
instead fails at commit, per the counterexample.) -/
theorem update_note_frame_nonnull (id : Int) (d : NoteUpdate) (s : Store) (n : NoteDB)
    (hfind : firstNote id s.notes = some n) (hv : d.valid = true)
    (hrow : rowNotNullOk n = true)
    (hnn : d.title ≠ some none ∧ d.text ≠ some none ∧
      d.owner ≠ some none ∧ d.created_at ≠ some none) :
    ∃ n2 s2, updateEndpoint id d s = (Except.ok n2, s2) ∧
      n2.id = n.id ∧
      (∀ v, d.title = some v → n2.title = v) ∧
      (d.title = none → n2.title = n.title) ∧
      (∀ v, d.text = some v → n2.text = v) ∧
      (d.text = none → n2.text = n.text) ∧
      (∀ v, d.owner = some v → n2.owner = v) ∧
      (d.owner = none → n2.owner = n.owner) ∧
      (∀ v, d.created_at = some v → n2.created_at = v) ∧
      (d.created_at = none → n2.created_at = n.created_at) ∧
      (d = ⟨none, none, none, none⟩ → n2 = n ∧ s2 = s) := by
  obtain ⟨hn1, hn2, hn3, hn4⟩ := hnn
  have hok : rowNotNullOk (applyUpdate d n) = true := by
    simp only [rowNotNullOk, Bool.and_eq_true] at hrow
    obtain ⟨⟨⟨ht, hx⟩, ho⟩, hc⟩ := hrow
    simp only [rowNotNullOk, applyUpdate, Bool.and_eq_true]
    exact ⟨⟨⟨getD_isSome_of_ne_null _ _ ht hn1, getD_isSome_of_ne_null _ _ hx hn2⟩,
      getD_isSome_of_ne_null _ _ ho hn3⟩, getD_isSome_of_ne_null _ _ hc hn4⟩
  have hend : updateEndpoint id d s =
      (Except.ok (applyUpdate d n),
        ⟨replaceFirst id (applyUpdate d n) s.notes, s.nextId⟩) := by
    simp [updateEndpoint, hv, update_note, hfind, hok]
  refine ⟨applyUpdate d n, _, hend, rfl, ?_, ?_, ?_, ?_, ?_, ?_, ?_, ?_, ?_⟩
  · intro v hv2; simp [applyUpdate, hv2]
  · intro hv2; simp [applyUpdate, hv2]
  · intro v hv2; simp [applyUpdate, hv2]
  · intro hv2; simp [applyUpdate, hv2]
  · intro v hv2; simp [applyUpdate, hv2]
  · intro hv2; simp [applyUpdate, hv2]
  · intro v hv2; simp [applyUpdate, hv2]
  · intro hv2; simp [applyUpdate, hv2]
  · rintro rfl
    have hid : applyUpdate ⟨none, none, none, none⟩ n = n := by
      simp [applyUpdate]
    rw [hid, replaceFirst_self hfind]
    exact ⟨rfl, rfl⟩

/-- Witness for C1: updating only the title of the one-note store sets
the title and keeps text, owner and date; the empty update returns the
note and the store unchanged. -/
theorem update_note_frame_nonnull_witness :
    (∃ n2 s2, updateEndpoint 1 ⟨some (some "t2"), none, none, none⟩ wStore = (Except.ok n2, s2) ∧
      n2.title = some "t2" ∧ n2.text = wNote.text ∧ n2.owner = wNote.owner ∧
      n2.created_at = wNote.created_at) ∧
    updateEndpoint 1 ⟨none, none, none, none⟩ wStore = (Except.ok wNote, wStore) := by
  constructor
  · obtain ⟨n2, s2, h1, _, ht, _, _, htx, _, how, _, hca, _⟩ :=
      update_note_frame_nonnull 1 ⟨some (some "t2"), none, none, none⟩ wStore wNote
        (by decide) (by decide) (by decide) (by decide)
    exact ⟨n2, s2, h1, ht _ rfl, htx rfl, how rfl, hca rfl⟩
  · obtain ⟨n2, s2, h1, -, -, -, -, -, -, -, -, -, hzero⟩ :=
      update_note_frame_nonnull 1 ⟨none, none, none, none⟩ wStore wNote
        (by decide) (by decide) (by decide) (by decide)
    obtain ⟨rfl, rfl⟩ := hzero rfl
    exact h1

/-- C5: for a valid creation input and a well-formed store (every stored
id below the autoincrement counter), creating and then getting the
returned id yields a note field-for-field equal to the input, with
`created_at` defaulted to today exactly when the input omitted it. -/
theorem create_get_roundtrip (d : NoteCreate) (today : PDate) (s : Store)
    (hv : d.valid = true) (hwf : ∀ n ∈ s.notes, n.id < s.nextId) :
    ∃ note s2, createEndpoint d today s = (Except.ok note, s2) ∧
      get_note note.id s2 = Except.ok note ∧
      note.title = some d.title ∧ note.text = some d.text ∧
      note.owner = some d.owner ∧
      (∀ c, d.created_at = some c → note.created_at = some c) ∧
      (d.created_at = none → note.created_at = some today) := by
  have hnone : s.notes.find? (fun n => n.id == s.nextId) = none := by
    rw [List.find?_eq_none]
    intro n hn
    simpa using Int.ne_of_lt (hwf n hn)
  refine ⟨⟨s.nextId, some d.title, some d.text, some d.owner,
    some (d.created_at.getD today)⟩,
    ⟨s.notes ++ [⟨s.nextId, some d.title, some d.text, some d.owner,
      some (d.created_at.getD today)⟩], s.nextId + 1⟩, ?_, ?_, rfl, rfl, rfl, ?_, ?_⟩
  · simp [createEndpoint, hv, create_note]
  · unfold get_note firstNote
    simp [List.find?_append, hnone]
  · intro c h
    simp [h]
  · intro h
    simp [h]

/-- Witness for C5: creating `⟨"T", "X", "O"⟩` without a date in the empty
store and getting the returned id yields the same fields with today's
date. -/
theorem create_get_roundtrip_witness :
    ∃ note s2, createEndpoint ⟨"T", "X", "O", none⟩ ⟨2025, 1, 2⟩ ⟨[], 1⟩ =
        (Except.ok note, s2) ∧
      get_note note.id s2 = Except.ok note ∧
      note.title = some "T" ∧ note.created_at = some ⟨2025, 1, 2⟩ := by
  obtain ⟨note, s2, h1, h2, h3, -, -, -, h4⟩ :=
    create_get_roundtrip ⟨"T", "X", "O", none⟩ ⟨2025, 1, 2⟩ ⟨[], 1⟩ (by decide) (by simp)
  exact ⟨note, s2, h1, h2, h3, h4 rfl⟩

/-- Counterexample to C3 as stated: the search value `"a%b"` does not
occur as a case-insensitive substring of the stored title `"aXb"` nor of
the text `"t"`, yet the note is returned — the unescaped `%` in the
interpolated LIKE pattern acts as a wildcard. -/
theorem list_search_cex :
    wildNote ∈ get_all_notes ⟨none, some "a%b", none, none⟩ wildStore ∧
    ¬ occursCI "a%b" "aXb" ∧ ¬ occursCI "a%b" "t" ∧
    wildNote.title = some "aXb" ∧ wildNote.text = some "t" := by
  exact ⟨by decide, by decide, by decide, rfl, rfl⟩

/-- C3 (amended): for a search value containing no LIKE wildcard
character (`%` or `_`), with the other filters absent a note is listed
iff it is stored and the search value occurs as a case-insensitive
substring of its title or of its text.  The store is assumed to hold
populated rows (every title and text present), the only rows the create
path produces. -/
theorem list_search_nowild_spec (q : String) (s : Store) (n : NoteDB)
    (hq : ∀ c ∈ q.data, c ≠ '%' ∧ c ≠ '_')
    (hwf : ∀ m ∈ s.notes, m.title ≠ none ∧ m.text ≠ none) :
    n ∈ get_all_notes ⟨none, some q, none, none⟩ s ↔
      n ∈ s.notes ∧
        ((∃ t, n.title = some t ∧ occursCI q t) ∨
         (∃ t, n.text = some t ∧ occursCI q t)) := by
  have hil : ∀ t : String, ilike t ("%" ++ q ++ "%") = true ↔ occursCI q t :=
    fun t => ilike_pct_iff t q hq
  have hsf : ∀ m : NoteDB, searchFilter q m = true ↔
      ((∃ t, m.title = some t ∧ occursCI q t) ∨
       (∃ t, m.text = some t ∧ occursCI q t)) := by
    intro m
    cases ht : m.title <;> cases hx : m.text <;>
      simp [searchFilter, ht, hx, hil]
  by_cases hqe : q.isEmpty
  · have hq0 : q = "" := (String.isEmpty_iff q).mp hqe
    subst hq0
    have hlist : get_all_notes ⟨none, some "", none, none⟩ s = s.notes := rfl
    rw [hlist]
    constructor
    · intro hn
      refine ⟨hn, ?_⟩
      obtain ⟨ht, -⟩ := hwf n hn
      obtain ⟨t, ht2⟩ := Option.ne_none_iff_exists'.mp ht
      exact Or.inl ⟨t, ht2, by simp [occursCI, lowerChars]⟩
    · exact fun h => h.1
  · have hlist : get_all_notes ⟨none, some q, none, none⟩ s =
        s.notes.filter (searchFilter q) := by
      simp [get_all_notes, appliedFilters, strFilterGuard, dateFilterGuard, hqe]
    rw [hlist, List.mem_filter, hsf n]

/-- Witness for C3: searching `"LUN"` (wildcard-free) over the scenario
store lists the `"Lunch"` note (case-insensitive substring of its
title). -/
theorem list_search_nowild_spec_witness :
    lunchNote ∈ get_all_notes ⟨none, some "LUN", none, none⟩ scenStore :=
  (list_search_nowild_spec "LUN" scenStore lunchNote (by decide) (by decide)).mpr
    ⟨by decide, Or.inl ⟨"Lunch", rfl, by decide⟩⟩

theorem entryHolds_strGuard (n : NoteDB) (v : Option String)
    (g : String → NoteDB → Bool) :
    entryHolds n (strFilterGuard v g) = true ↔
      (∀ o, v = some o → o ≠ "" → g o n = true) := by
  cases v with
  | none => simp [strFilterGuard, entryHolds]
  | some o =>
    by_cases ho : o.isEmpty
    · have h0 : o = "" := (String.isEmpty_iff o).mp ho
      subst h0
      simp [strFilterGuard, entryHolds, ho]
    · have hne : o ≠ "" := by
        intro hc
        subst hc
        exact ho rfl
      simp [strFilterGuard, entryHolds, ho, hne]

theorem entryHolds_dateGuard (n : NoteDB) (v : Option PDate)
    (g : PDate → NoteDB → Bool) :
    entryHolds n (dateFilterGuard v g) = true ↔
      (∀ d, v = some d → g d n = true) := by
  cases v <;> simp [dateFilterGuard, entryHolds]

theorem satisfiesAll_iff (p : ListParams) (n : NoteDB) :
    satisfiesAll p n = true ↔
      (∀ o, p.owner = some o → o ≠ "" → n.owner = some o) ∧
      (∀ q, p.search = some q → q ≠ "" → searchFilter q n = true) ∧
      (∀ d, p.date_from = some d → dateFromFilter d n = true) ∧
      (∀ d, p.date_to = some d → dateToFilter d n = true) := by
  simp only [satisfiesAll, appliedFilters, List.all_cons, List.all_nil, Bool.and_true,
    Bool.and_eq_true, entryHolds_strGuard, entryHolds_dateGuard]
  simp [ownerFilter, and_assoc]

/-- C4: a note is listed iff it is stored and satisfies every applied
filter (conjunction across the filter list); a note satisfies the filter
list iff it meets each supplied filter individually — exact owner match,
title/text search, inclusive date bounds — with a filter that contributes
no entry imposing no constraint (for `owner`/`search` that includes the
empty string, per Python truthiness); listing with no filters returns the
whole store; and the spec's concrete two-note scenario with
`owner="Ann"`, `date_from=2025-01-11` returns exactly the Lunch note. -/
theorem list_filters_spec :
    (∀ p s n, n ∈ get_all_notes p s ↔ n ∈ s.notes ∧ satisfiesAll p n = true) ∧
    (∀ p n, satisfiesAll p n = true ↔
      (∀ o, p.owner = some o → o ≠ "" → n.owner = some o) ∧
      (∀ q, p.search = some q → q ≠ "" → searchFilter q n = true) ∧
      (∀ d, p.date_from = some d → dateFromFilter d n = true) ∧
      (∀ d, p.date_to = some d → dateToFilter d n = true)) ∧
    (∀ s, get_all_notes ⟨none, none, none, none⟩ s = s.notes) ∧
    get_all_notes ⟨some "Ann", none, some ⟨2025, 1, 11⟩, none⟩ scenStore = [lunchNote] := by
  refine ⟨?_, satisfiesAll_iff, fun s => rfl, by decide⟩
  intro p s n
  exact mem_foldl_optFilter (appliedFilters p) s.notes n

/-- C8: a creation or update body violating a length or non-emptiness
bound — empty `title`, `text` or `owner`, `title` over 200 characters,
`owner` over 100 characters — is rejected with the 422 validation error
before the handler runs, and the store is returned unchanged. -/
theorem validation_spec :
    (∀ d today s,
      (d.title = "" ∨ d.text = "" ∨ d.owner = "" ∨
       200 < d.title.length ∨ 100 < d.owner.length) →
      createEndpoint d today s = (Except.error validationError, s) ∧
        validationError.status = 422) ∧
    (∀ id d s,
      (d.title = some (some "") ∨ d.text = some (some "") ∨ d.owner = some (some "") ∨
       (∃ t, d.title = some (some t) ∧ 200 < t.length) ∨
       (∃ t, d.owner = some (some t) ∧ 100 < t.length)) →
      updateEndpoint id d s = (Except.error validationError, s) ∧
        validationError.status = 422) := by
  constructor
  · intro d today s h
    have hv : d.valid = false := by
      rw [Bool.eq_false_iff]
      intro hv
      simp only [NoteCreate.valid, Bool.and_eq_true, decide_eq_true_eq] at hv
      obtain ⟨⟨⟨⟨h1, h2⟩, h3⟩, h4⟩, h5⟩ := hv
      rcases h with h | h | h | h | h
      · rw [h] at h1
        exact absurd h1 (by decide)
      · rw [h] at h3
        exact absurd h3 (by decide)
      · rw [h] at h4
        exact absurd h4 (by decide)
      · omega
      · omega
    exact ⟨by simp [createEndpoint, hv], rfl⟩
  · intro id d s h
    have hv : d.valid = false := by
      rw [Bool.eq_false_iff]
      intro hv
      simp only [NoteUpdate.valid, Bool.and_eq_true] at hv
      obtain ⟨⟨h1, h2⟩, h3⟩ := hv
      rcases h with h | h | h | ⟨t, ht, hlen⟩ | ⟨t, ht, hlen⟩
      · rw [h] at h1
        exact absurd h1 (by decide)
      · rw [h] at h2
        exact absurd h2 (by decide)
      · rw [h] at h3
        exact absurd h3 (by decide)
      · rw [ht] at h1
        simp only [optStrOk, Bool.and_eq_true, decide_eq_true_eq] at h1
        omega
      · rw [ht] at h3
        simp only [optStrOk, Bool.and_eq_true, decide_eq_true_eq] at h3
        omega
    exact ⟨by simp [updateEndpoint, hv], rfl⟩

/-- Witness for C8: a create body with empty title is rejected with 422
leaving the empty store unchanged; an update body with a 101-character
owner is rejected with 422 leaving the one-note store unchanged. -/
theorem validation_spec_witness :
    createEndpoint ⟨"", "x", "o", none⟩ ⟨2025, 1, 2⟩ ⟨[], 1⟩ =
      (Except.error validationError, ⟨[], 1⟩) ∧
    updateEndpoint 1 ⟨none, none, some (some (String.mk (List.replicate 101 'a'))), none⟩
        wStore = (Except.error validationError, wStore) := by
  constructor
  · exact (validation_spec.1 ⟨"", "x", "o", none⟩ ⟨2025, 1, 2⟩ ⟨[], 1⟩ (Or.inl rfl)).1
  · exact (validation_spec.2 1
      ⟨none, none, some (some (String.mk (List.replicate 101 'a'))), none⟩ wStore
      (Or.inr (Or.inr (Or.inr (Or.inr ⟨_, rfl, by decide⟩))))).1

/-- Counterexample to C9 as stated: the explicit-null-title update body
passes schema validation, but the update operation does not assign a
persisted `None` — `db.commit()` hits the `NOT NULL` column constraint,
the request fails with the generic 500 error, nothing is persisted, and
the resulting store still satisfies the non-empty invariant. -/
theorem update_null_cex :
    NoteUpdate.valid ⟨some none, none, none, none⟩ = true ∧
    updateEndpoint 1 ⟨some none, none, none, none⟩ wStore =
      (Except.error serverError, wStore) ∧
    notesInvariant
      (updateEndpoint 1 ⟨some none, none, none, none⟩ wStore).2.notes := by
  exact ⟨by decide, rfl, by decide⟩

/-- C9 (amended): an update body explicitly supplying `null` for `title`,
`text` or `owner` passes `NoteUpdate` validation (the `min_length` bounds
constrain only the string branch of the `Optional` fields) and reaches
the handler, but committing the null violates the `NOT NULL` column
constraints of `models.py`: the request fails with the generic 500 server
error (not a 422), nothing is persisted, and the invariant that every
persisted note has non-empty `title`, `text` and `owner` is preserved. -/
theorem update_null_commit_spec :
    NoteUpdate.valid ⟨some none, some none, some none, some none⟩ = true ∧
    (∀ id s n (d : NoteUpdate), firstNote id s.notes = some n → d.valid = true →
      (d.title = some none ∨ d.text = some none ∨ d.owner = some none) →
      updateEndpoint id d s = (Except.error serverError, s) ∧
        serverError.status = 500 ∧
        (notesInvariant s.notes → notesInvariant (updateEndpoint id d s).2.notes)) := by
  refine ⟨by decide, ?_⟩
  intro id s n d hfind hv hnull
  have hbad : rowNotNullOk (applyUpdate d n) = false := by
    rcases hnull with h | h | h <;>
      simp [rowNotNullOk, applyUpdate, h]
  have hend : updateEndpoint id d s = (Except.error serverError, s) := by
    simp [updateEndpoint, hv, update_note, hfind, hbad]
  refine ⟨hend, rfl, ?_⟩
  intro hinv
  rw [hend]
  exact hinv

/-- Witness for C9: updating note 1 of the one-note store with an
explicit null text fails with the generic 500 error and leaves the store
unchanged. -/
theorem update_null_commit_spec_witness :
    updateEndpoint 1 ⟨none, some none, none, none⟩ wStore =
      (Except.error serverError, wStore) :=
  (update_null_commit_spec.2 1 wStore wNote ⟨none, some none, none, none⟩
    (by decide) (by decide) (Or.inr (Or.inl rfl))).1

/-- C10: a list request supplying `owner` or `search` as the empty string
behaves exactly as if the parameter were absent (Python truthiness guards
the filter expressions), and consequently no owner parameter can isolate
the notes whose stored owner is the empty string: whenever a request's
result contains the empty-owner note of `mixedStore`, it also contains
the normally owned note. -/
theorem empty_string_filter_spec :
    (∀ q df dt s, get_all_notes ⟨some "", q, df, dt⟩ s =
      get_all_notes ⟨none, q, df, dt⟩ s) ∧
    (∀ o df dt s, get_all_notes ⟨o, some "", df, dt⟩ s =
      get_all_notes ⟨o, none, df, dt⟩ s) ∧
    (∀ o, emptyOwnerNote ∈ get_all_notes ⟨o, none, none, none⟩ mixedStore →
      namedOwnerNote ∈ get_all_notes ⟨o, none, none, none⟩ mixedStore) := by
  refine ⟨fun q df dt s => rfl, fun o df dt s => rfl, ?_⟩
  intro o hmem
  cases o with
  | none => decide
  | some ow =>
    by_cases how : ow.isEmpty
    · have hres : get_all_notes ⟨some ow, none, none, none⟩ mixedStore =
          mixedStore.notes := by
        simp [get_all_notes, appliedFilters, strFilterGuard, dateFilterGuard, how]
      rw [hres]
      decide
    · have hres : get_all_notes ⟨some ow, none, none, none⟩ mixedStore =
          mixedStore.notes.filter (ownerFilter ow) := by
        simp [get_all_notes, appliedFilters, strFilterGuard, dateFilterGuard, how]
      rw [hres, List.mem_filter] at hmem
      have heq : "" = ow := by
        have := hmem.2
        simpa [ownerFilter, emptyOwnerNote] using this
      apply absurd ?_ how
      rw [← heq]
      decide

/-- Witness for C10: the unfiltered request's result contains the
empty-owner note, and indeed also the normally owned note. -/
theorem empty_string_filter_spec_witness :
    namedOwnerNote ∈ get_all_notes ⟨none, none, none, none⟩ mixedStore :=
  empty_string_filter_spec.2.2 none (by decide)
